import Mathlib

/-!
Verification of the `gme` Go binding (`src/gme.go`).

The package is cgo glue around the native Game_Music_Emu library.  The native
library is not part of the source, so it is a parameter of the embedding: a
record `Native σ` of functions over an arbitrary native state `σ`.  Every Go
function is translated into a Lean function that threads a `World σ`: the
native state together with the log of native calls made so far.

Conventions of the embedding:

* a C pointer is an `Option` (`none` is `NULL`);
* a `const char *` that is not `NULL` is the list of bytes stored from the
  pointed address onwards (terminator and whatever follows included);
* a Go `string` is its list of bytes;
* a Go `error` is an `Option GoError` (`none` is `nil`);
* a run-time panic is the `Except.error` outcome of the function, returned
  next to the world so that the native calls made before it stay visible;
* machine integers are `Int` with explicit wrap-around (`wrapInt`);
* Go `int` and C `long` have the same width (LP64), so `C.long(x)` of a Go
  `int` is `x`; `C.int(x)` truncates to 32 bits;
* a method receiver `g *GME` is a `GME` value (a session that exists), except
  for `Warning`, which tests `g == nil` itself and takes an `Option GME`;
* a native call is assumed to return.
-/

set_option autoImplicit false

namespace Gme

/-! ## Machine integers -/

/-- Two's-complement wrap of an integer to `bits` bits (signed). -/
def wrapInt (bits : Nat) (x : Int) : Int :=
  (x + 2 ^ (bits - 1)) % 2 ^ bits - 2 ^ (bits - 1)

/-- Go conversion `int16(x)`. -/
def int16 (x : Int) : Int := wrapInt 16 x

/-- Go conversion `C.int(x)` (C `int` is 32 bits). -/
def C_int (x : Int) : Int := wrapInt 32 x

/-- Go conversion `C.long(x)` of a Go `int` (same width on LP64: unchanged). -/
def C_long (x : Int) : Int := x

/-- Go conversion `time.Duration(x)` (`Duration` is `int64`). -/
def time_Duration (x : Int) : Int := wrapInt 64 x

/-- Go constant `time.Millisecond`, in nanoseconds. -/
def time_Millisecond : Int := 1000000

/-- Go multiplication of two `time.Duration` values (wraps at 64 bits). -/
def Duration_mul (a b : Int) : Int := wrapInt 64 (a * b)

/-- Range of a C `int` (32-bit signed). -/
def isCInt (x : Int) : Prop := -2147483648 ≤ x ∧ x < 2147483648

instance (x : Int) : Decidable (isCInt x) := by
  unfold isCInt; exact inferInstance

/-! ## Bytes, strings, pointers -/

/-- One byte (`C.char` / Go `byte`, as a raw octet). -/
abbrev Byte := Fin 256

/-- Go `string`: a sequence of bytes. -/
abbrev GoString := List Byte

/-- C `const char *`: `none` is `NULL`, `some mem` points at the bytes `mem`. -/
abbrev CharPtr := Option (List Byte)

/-- C `Music_Emu *`: `none` is `NULL`, `some h` is the handle `h`. -/
abbrev EmuPtr := Option Nat

/-- C value of type `short`. -/
abbrev CShort := { v : Int // -32768 ≤ v ∧ v < 32768 }

/-- Go array `[256]C.char`. -/
structure CharArray256 where
  bytes : List Byte
  size_eq : bytes.length = 256

/-- The test `c != 0` on a byte. -/
def nonZero (c : Byte) : Bool := decide (c ≠ 0)

/-- cgo `C.GoString`: `""` for `NULL`, otherwise the bytes before the first
zero byte found from the pointed address on (C `strlen` semantics). -/
def C_GoString (p : CharPtr) : GoString :=
  match p with
  | none => []
  | some mem => mem.takeWhile nonZero

/-- Go `error` values produced or named by the package. -/
inductive GoError where
  /-- Result of `fmt.Errorf`, with its message. -/
  | errorf (text : GoString)
  /-- The value `io.EOF`. -/
  | EOF
  deriving DecidableEq

/-- Method `Error()` of a Go error: its text. -/
def GoError.Error : GoError → GoString
  | .errorf text => text
  | .EOF => [69, 79, 70]

/-- The bytes of the literal `"gme: "` in `fmt.Errorf("gme: %v", ...)`. -/
def gmeColon : GoString := [103, 109, 101, 58, 32]

/-- Go run-time panics. -/
inductive Panic where
  /-- The panic `index out of range [index] with length len`. -/
  | indexOutOfRange (index len : Nat)
  deriving DecidableEq

deriving instance DecidableEq for Except

/-! ## The native library -/

/-- Modelled from the spec: the C struct `track_info_t` of `gme.h`, which is
not in the source.  Its fields are those `GME.Track` reads and the spec lists:
three millisecond times and seven fixed-size (256 byte) strings. -/
structure track_info_t where
  length : Int
  intro_length : Int
  loop_length : Int
  system : CharArray256
  game : CharArray256
  song : CharArray256
  author : CharArray256
  copyright : CharArray256
  comment : CharArray256
  dumper : CharArray256

/-- The times of a native record are C `int` values. -/
def track_info_t.timesAreCInt (t : track_info_t) : Prop :=
  isCInt t.length ∧ isCInt t.intro_length ∧ isCInt t.loop_length

instance (t : track_info_t) : Decidable t.timesAreCInt := by
  unfold track_info_t.timesAreCInt; exact inferInstance

/-- One call into the native library, with the arguments passed by value. -/
inductive NativeCall where
  | gme_open_data (data : List Byte) (size : Int) (sampleRate : Int)
  | gme_track_info (emu : EmuPtr) (track : Int)
  | gme_play (emu : EmuPtr) (count : Int)
  | gme_track_ended (emu : EmuPtr)
  | gme_delete (emu : EmuPtr)
  | gme_warning (emu : EmuPtr)
  deriving DecidableEq

/-- The native library, over its own state `σ`.  Each function returns what the
C function returns or writes through its out parameters, and the next state.

* `gme_open_data data size out sample_rate`: the error and the value stored in
  `*out` (the Go side passes `&g.emu`, initially `NULL`);
* `gme_track_info emu out track`: the error and the contents of `*out` after
  the call;
* `gme_play emu count out`: the error and the memory around `out` after the
  call, as a function of the offset (in `short`s) from `out`;
* `gme_track_ended emu`: the C `int` result;
* `gme_warning emu`: the warning string pointer. -/
structure Native (σ : Type) where
  gme_open_data : σ → List Byte → Int → Int → (CharPtr × EmuPtr) × σ
  gme_track_info : σ → EmuPtr → Int → (CharPtr × track_info_t) × σ
  gme_play : σ → EmuPtr → Int → (CharPtr × (Int → CShort)) × σ
  gme_track_ended : σ → EmuPtr → Int × σ
  gme_delete : σ → EmuPtr → σ
  gme_warning : σ → EmuPtr → CharPtr × σ

/-- The world a Go function runs in: native state and the log of native calls. -/
structure World (σ : Type) where
  native : σ
  calls : List NativeCall
  deriving DecidableEq

/-- The world after one more native call. -/
def World.step {σ : Type} (w : World σ) (c : NativeCall) (s : σ) : World σ :=
  { native := s, calls := w.calls ++ [c] }

/-! ## The Go package -/

/-- Go struct `GME`. -/
structure GME where
  emu : EmuPtr
  deriving DecidableEq

/-- Go struct `Track`. -/
structure Track where
  Length : Int
  IntroLength : Int
  LoopLength : Int
  System : GoString
  Game : GoString
  Song : GoString
  Author : GoString
  Copyright : GoString
  Comment : GoString
  Dumper : GoString
  deriving DecidableEq

/-- The zero value `Track{}`. -/
def Track.zero : Track :=
  { Length := 0, IntroLength := 0, LoopLength := 0, System := [], Game := [],
    Song := [], Author := [], Copyright := [], Comment := [], Dumper := [] }

/-- Go `gmeError`. -/
def gmeError (e : CharPtr) : Option GoError :=
  if e = none then none
  else some (GoError.errorf (gmeColon ++ C_GoString e))

/-- Go `cstring`.  The array `s` is a by-value copy; `C.GoString` is given the
address of its first element, so it reads the copy and then `after`, the bytes
that follow the copy in memory, until it meets a zero byte. -/
def cstring (after : List Byte) (s : CharArray256) : GoString :=
  C_GoString (some (s.bytes ++ after))

/-- Go `New`.  `&b[0]` panics on an empty slice, before the native call. -/
def New {σ : Type} (lib : Native σ) (w : World σ) (b : List Byte) (sampleRate : Int) :
    Except Panic (Option GME × Option GoError) × World σ :=
  -- var g GME
  let g : GME := { emu := none }
  -- data := unsafe.Pointer(&b[0])
  if 0 < b.length then
    let data := b
    -- cerror := C.gme_open_data(data, C.long(len(b)), &g.emu, C.long(sampleRate))
    let r := lib.gme_open_data w.native data (C_long b.length) (C_long sampleRate)
    let w1 := w.step (.gme_open_data data (C_long b.length) (C_long sampleRate)) r.2
    let cerror := r.1.1
    let g : GME := { g with emu := r.1.2 }
    match gmeError cerror with
    | some err => (.ok (none, some err), w1)
    | none => (.ok (some g, none), w1)
  else
    (.error (.indexOutOfRange 0 b.length), w)

/-- Go `(*GME).Track`.  `after` is the memory that follows the argument copy
made for each `cstring` call. -/
def GME.Track {σ : Type} (lib : Native σ) (w : World σ) (after : List Byte) (g : GME)
    (track : Int) : (Track × Option GoError) × World σ :=
  -- cerror := C.gme_track_info(g.emu, &t, C.int(track))
  let r := lib.gme_track_info w.native g.emu (C_int track)
  let w1 := w.step (.gme_track_info g.emu (C_int track)) r.2
  let cerror := r.1.1
  let t := r.1.2
  match gmeError cerror with
  | some err => ((Track.zero, some err), w1)
  | none =>
    (({ Length := Duration_mul (time_Duration t.length) time_Millisecond,
        IntroLength := Duration_mul (time_Duration t.intro_length) time_Millisecond,
        LoopLength := Duration_mul (time_Duration t.loop_length) time_Millisecond,
        System := cstring after t.system,
        Game := cstring after t.game,
        Song := cstring after t.song,
        Author := cstring after t.game,
        Copyright := cstring after t.copyright,
        Comment := cstring after t.comment,
        Dumper := cstring after t.dumper }, none), w1)

/-- Go `(*GME).Ended`. -/
def GME.Ended {σ : Type} (lib : Native σ) (w : World σ) (g : GME) : Bool × World σ :=
  let r := lib.gme_track_ended w.native g.emu
  (decide (r.1 = 1), w.step (.gme_track_ended g.emu) r.2)

/-- C helper `short_index` of the cgo preamble: `s[i]`, on the memory around
the block `s`. -/
def short_index (s : Int → CShort) (i : Int) : CShort := s i

/-- The copy loop of `Play`: `for i := range data { data[i] = ... }`. -/
def playCopy (datablock : Int → CShort) (data : List Int) : List Int :=
  (List.range data.length).foldl
    (fun d i => d.set i (int16 (short_index datablock (C_int i)).val)) data

/-- Go `(*GME).Play`.  `b` has `len(data)` elements, so `&b[0]` panics when
`data` is empty.  Returns the contents of `data` after the call and `err`. -/
def GME.Play {σ : Type} (lib : Native σ) (w : World σ) (g : GME) (data : List Int) :
    Except Panic (List Int × Option GoError) × World σ :=
  -- b := make([]C.short, len(data))
  let lenb := data.length
  -- datablock := (*C.short)(unsafe.Pointer(&b[0]))
  if 0 < lenb then
    -- cerror := C.gme_play(g.emu, C.long(len(b)), datablock)
    let r := lib.gme_play w.native g.emu (C_long lenb)
    let w1 := w.step (.gme_play g.emu (C_long lenb)) r.2
    let cerror := r.1.1
    let datablock := r.1.2
    match gmeError cerror with
    | some err => (.ok (data, some err), w1)
    | none =>
      let data1 := playCopy datablock data
      -- if false && g.Ended() { return io.EOF }
      if false then
        let e := GME.Ended lib w1 g
        if e.1 then (.ok (data1, some GoError.EOF), e.2)
        else (.ok (data1, none), e.2)
      else
        (.ok (data1, none), w1)
  else
    (.error (.indexOutOfRange 0 lenb), w)

/-- Go `(*GME).Close`: returns the receiver after the call. -/
def GME.Close {σ : Type} (lib : Native σ) (w : World σ) (g : GME) : GME × World σ :=
  if g.emu ≠ none then
    -- C.gme_delete(g.emu); g.emu = nil
    ({ g with emu := none }, w.step (.gme_delete g.emu) (lib.gme_delete w.native g.emu))
  else
    (g, w)

/-- Go `(*GME).Warning`; the receiver pointer may be `nil`. -/
def GME.Warning {σ : Type} (lib : Native σ) (w : World σ) (g : Option GME) :
    GoString × World σ :=
  match g with
  | none => ([], w)
  | some g =>
    if g.emu = none then ([], w)
    else
      let r := lib.gme_warning w.native g.emu
      (C_GoString r.1, w.step (.gme_warning g.emu) r.2)

/-- Calling `Close` `n` times in a row. -/
def closeTimes {σ : Type} (lib : Native σ) : Nat → World σ → GME → GME × World σ
  | 0, w, g => (g, w)
  | n + 1, w, g =>
    let r := GME.Close lib w g
    closeTimes lib n r.2 r.1

/-! ## Concrete inputs used by the examples -/

/-- The 256-byte field holding the single character `c` followed by zeros. -/
def field1 (c : Byte) : CharArray256 :=
  { bytes := c :: List.replicate 255 0,
    size_eq := by rw [List.length_cons, List.length_replicate] }

/-- The 256-byte field filled with the character `c`. -/
def fieldFull (c : Byte) : CharArray256 :=
  { bytes := List.replicate 256 c, size_eq := List.length_replicate 256 c }

/-- A native record whose game is `"G"` and whose author is `"A"`. -/
def sampleInfo : track_info_t :=
  { length := 1000, intro_length := -1, loop_length := 0,
    system := field1 83, game := field1 71, song := field1 79, author := field1 65,
    copyright := field1 67, comment := field1 77, dumper := field1 68 }

/-- A native library over the trivial state: every call succeeds, opening
yields handle `1`, track info is `sampleInfo`, the memory around the play
block holds `1` below the block and `i % 7` at offset `i ≥ 0`. -/
def okLib : Native Unit :=
  { gme_open_data := fun _ _ _ _ => ((none, some 1), ()),
    gme_track_info := fun _ _ _ => ((none, sampleInfo), ()),
    gme_play := fun _ _ _ =>
      ((none, fun i => if 0 ≤ i then ⟨i % 7, by omega⟩ else ⟨1, by decide⟩), ()),
    gme_track_ended := fun _ _ => (1, ()),
    gme_delete := fun _ _ => (),
    gme_warning := fun _ _ => (some [119, 0, 120], ()) }

/-- A native library over the trivial state whose every call fails with the
message `"bad"`. -/
def errLib : Native Unit :=
  { gme_open_data := fun _ _ _ _ => ((some [98, 97, 100, 0], none), ()),
    gme_track_info := fun _ _ _ => ((some [98, 97, 100, 0], sampleInfo), ()),
    gme_play := fun _ _ _ => ((some [98, 97, 100, 0], fun _ => ⟨5, by decide⟩), ()),
    gme_track_ended := fun _ _ => (0, ()),
    gme_delete := fun _ _ => (),
    gme_warning := fun _ _ => (none, ()) }

/-- The empty world over the trivial state. -/
def w0 : World Unit := { native := (), calls := [] }

end Gme

namespace Gme

/-! ## Auxiliary lemmas -/

theorem wrapInt16_of_range (x : Int) (h1 : -32768 ≤ x) (h2 : x < 32768) :
    wrapInt 16 x = x := by
  unfold wrapInt
  norm_num
  omega

theorem wrapInt32_of_range (x : Int) (h1 : -2147483648 ≤ x) (h2 : x < 2147483648) :
    wrapInt 32 x = x := by
  unfold wrapInt
  norm_num
  omega

theorem wrapInt64_of_range (x : Int) (h1 : -9223372036854775808 ≤ x)
    (h2 : x < 9223372036854775808) : wrapInt 64 x = x := by
  unfold wrapInt
  norm_num
  omega

/-- A millisecond count that fits a C `int` converts to nanoseconds exactly. -/
theorem millis_exact (x : Int) (h : isCInt x) :
    Duration_mul (time_Duration x) time_Millisecond = x * 1000000 := by
  obtain ⟨h1, h2⟩ := h
  unfold Duration_mul time_Duration time_Millisecond
  rw [wrapInt64_of_range x (by omega) (by omega)]
  exact wrapInt64_of_range _ (by omega) (by omega)

theorem takeWhile_nonzero_append (m after : List Byte) (h : (0 : Byte) ∉ m) :
    (m ++ after).takeWhile nonZero = m ++ after.takeWhile nonZero := by
  induction m with
  | nil => rfl
  | cons a m ih =>
    have ha : nonZero a = true := by
      unfold nonZero
      exact decide_eq_true (fun e => h (by simp [e]))
    have hm : (0 : Byte) ∉ m := fun e => h (List.mem_cons_of_mem _ e)
    rw [List.cons_append, List.takeWhile_cons, ha, ih hm]
    rfl

theorem takeWhile_nonzero_append_zero (m rest : List Byte) (h : (0 : Byte) ∉ m) :
    (m ++ 0 :: rest).takeWhile nonZero = m := by
  rw [takeWhile_nonzero_append m _ h]
  have h0 : nonZero 0 = false := by decide
  rw [List.takeWhile_cons, h0]
  simp

theorem takeWhile_nonzero_of_not_mem (m : List Byte) (h : (0 : Byte) ∉ m) :
    m.takeWhile nonZero = m := by
  have := takeWhile_nonzero_append m [] h
  simpa using this

theorem zero_not_mem_takeWhile (m : List Byte) :
    (0 : Byte) ∉ m.takeWhile nonZero := by
  intro h
  have h1 := List.mem_takeWhile_imp h
  exact absurd h1 (by decide)

/-- A list holding a zero byte splits at its first zero byte. -/
theorem split_at_first_zero (m : List Byte) (h : (0 : Byte) ∈ m) :
    ∃ rest, m = m.takeWhile nonZero ++ 0 :: rest := by
  induction m with
  | nil => exact absurd h (List.not_mem_nil _)
  | cons a m ih =>
    by_cases ha : a = 0
    · refine ⟨m, ?_⟩
      have h0 : nonZero a = false := by rw [ha]; decide
      rw [List.takeWhile_cons, h0, ha]
      rfl
    · have hm : (0 : Byte) ∈ m := by
        rcases List.mem_cons.1 h with e | e
        · exact absurd e.symm ha
        · exact e
      obtain ⟨rest, hr⟩ := ih hm
      refine ⟨rest, ?_⟩
      have h1 : nonZero a = true := by
        unfold nonZero
        exact decide_eq_true ha
      rw [List.takeWhile_cons, h1]
      exact congrArg (List.cons a) hr

/-- State of `data` after the first `n` rounds of a loop writing `f i` at
index `i`: the first `n` entries are written, the others are untouched. -/
theorem foldl_set_range (f : Nat → Int) (data : List Int) (n : Nat) (hn : n ≤ data.length) :
    ((List.range n).foldl (fun d i => d.set i (f i)) data).length = data.length ∧
    ∀ i, ((List.range n).foldl (fun d i => d.set i (f i)) data)[i]? =
      if i < n then some (f i) else data[i]? := by
  induction n with
  | zero => simp
  | succ n ih =>
    obtain ⟨hl, hg⟩ := ih (Nat.le_of_succ_le hn)
    rw [List.range_succ, List.foldl_append]
    simp only [List.foldl_cons, List.foldl_nil, List.length_set]
    refine ⟨hl, fun i => ?_⟩
    rw [List.getElem?_set]
    by_cases hin : n = i
    · subst hin
      have h1 : n < ((List.range n).foldl (fun d i => d.set i (f i)) data).length := by
        rw [hl]; exact hn
      simp [h1]
    · rw [if_neg hin, hg i]
      by_cases h2 : i < n
      · simp [h2, Nat.lt_succ_of_lt h2]
      · have h3 : ¬ i < n + 1 := by omega
        simp [h2, h3]

theorem playCopy_length (blk : Int → CShort) (data : List Int) :
    (playCopy blk data).length = data.length :=
  (foldl_set_range (fun i => int16 (short_index blk (C_int i)).val) data data.length
    (Nat.le_refl _)).1

theorem playCopy_getElem? (blk : Int → CShort) (data : List Int) (i : Nat)
    (hi : i < data.length) :
    (playCopy blk data)[i]? = some (int16 (blk (C_int i)).val) := by
  have h := (foldl_set_range (fun i => int16 (short_index blk (C_int i)).val) data data.length
    (Nat.le_refl _)).2 i
  rw [if_pos hi] at h
  exact h

/-- Below `2^31` the index conversion `C.int(i)` and the sample conversion
`int16` are exact, so entry `i` is the `short` stored at offset `i`. -/
theorem playCopy_exact (blk : Int → CShort) (data : List Int) (i : Nat)
    (hi : i < data.length) (h31 : i < 2147483648) :
    (playCopy blk data)[i]? = some (blk i).val := by
  rw [playCopy_getElem? blk data i hi]
  have hc : C_int (i : Int) = i := by
    unfold C_int
    exact wrapInt32_of_range _ (by omega) (by omega)
  rw [hc]
  unfold int16
  rw [wrapInt16_of_range _ (blk i).property.1 (blk i).property.2]

theorem gmeError_eq_none_iff (e : CharPtr) : gmeError e = none ↔ e = none := by
  unfold gmeError
  by_cases h : e = none
  · simp [h]
  · simp [h]

/-- What `Play` does on a buffer that is not empty. -/
theorem Play_of_nonempty {σ : Type} (lib : Native σ) (w : World σ) (g : GME) (data : List Int)
    (hne : data ≠ []) :
    (GME.Play lib w g data).2 =
      w.step (.gme_play g.emu data.length) (lib.gme_play w.native g.emu data.length).2 ∧
    ((lib.gme_play w.native g.emu data.length).1.1 = none →
      (GME.Play lib w g data).1 =
        .ok (playCopy (lib.gme_play w.native g.emu data.length).1.2 data, none)) ∧
    ((lib.gme_play w.native g.emu data.length).1.1 ≠ none →
      (GME.Play lib w g data).1 =
        .ok (data, gmeError (lib.gme_play w.native g.emu data.length).1.1) ∧
      gmeError (lib.gme_play w.native g.emu data.length).1.1 ≠ none) := by
  have hpos : 0 < data.length := List.length_pos.2 hne
  unfold GME.Play
  simp only [hpos, if_true, C_long]
  refine ⟨?_, ?_, ?_⟩
  · cases hE : gmeError (lib.gme_play w.native g.emu data.length).1.1 <;> simp
  · intro h
    have hE := (gmeError_eq_none_iff _).2 h
    simp [hE]
  · intro h
    have hE : gmeError (lib.gme_play w.native g.emu data.length).1.1 ≠ none :=
      fun e => h ((gmeError_eq_none_iff _).1 e)
    refine ⟨?_, hE⟩
    cases hE2 : gmeError (lib.gme_play w.native g.emu data.length).1.1 with
    | none => exact absurd hE2 hE
    | some err => simp

/-- What `Track` returns when the native call reports no error. -/
theorem Track_of_ok {σ : Type} (lib : Native σ) (w : World σ) (after : List Byte) (g : GME)
    (track : Int) (hok : (lib.gme_track_info w.native g.emu (C_int track)).1.1 = none) :
    (GME.Track lib w after g track).1 =
      ({ Length := Duration_mul (time_Duration
            (lib.gme_track_info w.native g.emu (C_int track)).1.2.length) time_Millisecond,
         IntroLength := Duration_mul (time_Duration
            (lib.gme_track_info w.native g.emu (C_int track)).1.2.intro_length) time_Millisecond,
         LoopLength := Duration_mul (time_Duration
            (lib.gme_track_info w.native g.emu (C_int track)).1.2.loop_length) time_Millisecond,
         System := cstring after (lib.gme_track_info w.native g.emu (C_int track)).1.2.system,
         Game := cstring after (lib.gme_track_info w.native g.emu (C_int track)).1.2.game,
         Song := cstring after (lib.gme_track_info w.native g.emu (C_int track)).1.2.song,
         Author := cstring after (lib.gme_track_info w.native g.emu (C_int track)).1.2.game,
         Copyright :=
           cstring after (lib.gme_track_info w.native g.emu (C_int track)).1.2.copyright,
         Comment := cstring after (lib.gme_track_info w.native g.emu (C_int track)).1.2.comment,
         Dumper := cstring after (lib.gme_track_info w.native g.emu (C_int track)).1.2.dumper },
       none) := by
  have hE := (gmeError_eq_none_iff _).2 hok
  unfold GME.Track
  simp [hE]

/-- What `Track` returns when the native call reports an error. -/
theorem Track_of_error {σ : Type} (lib : Native σ) (w : World σ) (after : List Byte) (g : GME)
    (track : Int) (herr : (lib.gme_track_info w.native g.emu (C_int track)).1.1 ≠ none) :
    (GME.Track lib w after g track).1 =
      (Track.zero, gmeError (lib.gme_track_info w.native g.emu (C_int track)).1.1) ∧
    gmeError (lib.gme_track_info w.native g.emu (C_int track)).1.1 ≠ none := by
  have hE : gmeError (lib.gme_track_info w.native g.emu (C_int track)).1.1 ≠ none :=
    fun e => herr ((gmeError_eq_none_iff _).1 e)
  refine ⟨?_, hE⟩
  unfold GME.Track
  cases hE2 : gmeError (lib.gme_track_info w.native g.emu (C_int track)).1.1 with
  | none => exact absurd hE2 hE
  | some err => simp [hE2]

/-- The outcome of `Play` on a buffer of 1 to `2^31` entries: it returns, the
length of `data` is kept, the error is non-nil exactly when the native call
reports one and then `data` is untouched, and otherwise entry `i` of `data` is
the `short` at offset `i` of the block after the native call. -/
theorem Play_returns {σ : Type} (lib : Native σ) (w : World σ) (g : GME) (data : List Int)
    (hne : data ≠ []) (h31 : data.length ≤ 2147483648) :
    ∃ d err, (GME.Play lib w g data).1 = .ok (d, err) ∧
      d.length = data.length ∧
      (err ≠ none ↔ (lib.gme_play w.native g.emu data.length).1.1 ≠ none) ∧
      (err ≠ none → d = data) ∧
      (err = none → ∀ i, i < data.length →
        d[i]? = some ((lib.gme_play w.native g.emu data.length).1.2 i).val) := by
  obtain ⟨_, hok, herr⟩ := Play_of_nonempty lib w g data hne
  by_cases h : (lib.gme_play w.native g.emu data.length).1.1 = none
  · refine ⟨_, none, hok h, playCopy_length _ _, ?_, fun e => absurd rfl e, fun _ i hi => ?_⟩
    · simp [h]
    · exact playCopy_exact _ data i hi (by omega)
  · obtain ⟨h1, h2⟩ := herr h
    refine ⟨data, _, h1, rfl, ⟨fun _ => h, fun _ => h2⟩, fun _ => rfl, fun e => absurd e h2⟩

/-- What `New` does on an image that is not empty. -/
theorem New_of_nonempty {σ : Type} (lib : Native σ) (w : World σ) (b : List Byte)
    (sampleRate : Int) (hne : b ≠ []) :
    (New lib w b sampleRate).2 =
      w.step (.gme_open_data b b.length sampleRate)
        (lib.gme_open_data w.native b b.length sampleRate).2 ∧
    ((lib.gme_open_data w.native b b.length sampleRate).1.1 = none →
      (New lib w b sampleRate).1 =
        .ok (some { emu := (lib.gme_open_data w.native b b.length sampleRate).1.2 }, none)) ∧
    ((lib.gme_open_data w.native b b.length sampleRate).1.1 ≠ none →
      (New lib w b sampleRate).1 =
        .ok (none, gmeError (lib.gme_open_data w.native b b.length sampleRate).1.1) ∧
      gmeError (lib.gme_open_data w.native b b.length sampleRate).1.1 ≠ none) := by
  have hpos : 0 < b.length := List.length_pos.2 hne
  unfold New
  simp only [hpos, if_true, C_long]
  refine ⟨?_, ?_, ?_⟩
  · cases hE : gmeError (lib.gme_open_data w.native b b.length sampleRate).1.1 <;> simp
  · intro h
    have hE := (gmeError_eq_none_iff _).2 h
    simp [hE]
  · intro h
    have hE : gmeError (lib.gme_open_data w.native b b.length sampleRate).1.1 ≠ none :=
      fun e => h ((gmeError_eq_none_iff _).1 e)
    refine ⟨?_, hE⟩
    cases hE2 : gmeError (lib.gme_open_data w.native b b.length sampleRate).1.1 with
    | none => exact absurd hE2 hE
    | some err => simp

/-! ## The claims -/

/-- C1 (fails on the code): on the record `sampleInfo`, returned without error
and whose game is `"G"` and author `"A"`, `Track` returns `Author = "G"`, the
decoded game field, and not `"A"`, the decoded author field; the six other
text fields are the decoded same-named fields. -/
theorem C1_Track_author_is_game :
    (GME.Track okLib w0 [] { emu := some 1 } 0).1.2 = none ∧
    cstring [] sampleInfo.author = [65] ∧
    cstring [] sampleInfo.game = [71] ∧
    (GME.Track okLib w0 [] { emu := some 1 } 0).1.1.Author = [71] ∧
    (GME.Track okLib w0 [] { emu := some 1 } 0).1.1.Author ≠ cstring [] sampleInfo.author ∧
    (GME.Track okLib w0 [] { emu := some 1 } 0).1.1.System = cstring [] sampleInfo.system ∧
    (GME.Track okLib w0 [] { emu := some 1 } 0).1.1.Game = cstring [] sampleInfo.game ∧
    (GME.Track okLib w0 [] { emu := some 1 } 0).1.1.Song = cstring [] sampleInfo.song ∧
    (GME.Track okLib w0 [] { emu := some 1 } 0).1.1.Copyright =
      cstring [] sampleInfo.copyright ∧
    (GME.Track okLib w0 [] { emu := some 1 } 0).1.1.Comment = cstring [] sampleInfo.comment ∧
    (GME.Track okLib w0 [] { emu := some 1 } 0).1.1.Dumper = cstring [] sampleInfo.dumper := by
  decide

/-- C6: when `gme_track_info` reports no error and the three times of the
record are 32-bit signed values, `Track` succeeds and `Length`, `IntroLength`
and `LoopLength` are exactly the native value times 1,000,000 (nanoseconds);
the product fits 64 bits, and each duration is negative (zero) exactly when
the native value is negative (zero). -/
theorem C6_Track_durations_exact {σ : Type} (lib : Native σ) (w : World σ)
    (after : List Byte) (g : GME) (track : Int)
    (hok : (lib.gme_track_info w.native g.emu (C_int track)).1.1 = none)
    (hint : (lib.gme_track_info w.native g.emu (C_int track)).1.2.timesAreCInt) :
    (GME.Track lib w after g track).1.2 = none ∧
    ((GME.Track lib w after g track).1.1.Length =
        (lib.gme_track_info w.native g.emu (C_int track)).1.2.length * 1000000 ∧
      (GME.Track lib w after g track).1.1.IntroLength =
        (lib.gme_track_info w.native g.emu (C_int track)).1.2.intro_length * 1000000 ∧
      (GME.Track lib w after g track).1.1.LoopLength =
        (lib.gme_track_info w.native g.emu (C_int track)).1.2.loop_length * 1000000) ∧
    (-9223372036854775808 ≤ (GME.Track lib w after g track).1.1.Length ∧
      (GME.Track lib w after g track).1.1.Length < 9223372036854775808 ∧
      -9223372036854775808 ≤ (GME.Track lib w after g track).1.1.IntroLength ∧
      (GME.Track lib w after g track).1.1.IntroLength < 9223372036854775808 ∧
      -9223372036854775808 ≤ (GME.Track lib w after g track).1.1.LoopLength ∧
      (GME.Track lib w after g track).1.1.LoopLength < 9223372036854775808) ∧
    (((GME.Track lib w after g track).1.1.Length < 0 ↔
        (lib.gme_track_info w.native g.emu (C_int track)).1.2.length < 0) ∧
      ((GME.Track lib w after g track).1.1.IntroLength < 0 ↔
        (lib.gme_track_info w.native g.emu (C_int track)).1.2.intro_length < 0) ∧
      ((GME.Track lib w after g track).1.1.LoopLength < 0 ↔
        (lib.gme_track_info w.native g.emu (C_int track)).1.2.loop_length < 0)) ∧
    (((GME.Track lib w after g track).1.1.Length = 0 ↔
        (lib.gme_track_info w.native g.emu (C_int track)).1.2.length = 0) ∧
      ((GME.Track lib w after g track).1.1.IntroLength = 0 ↔
        (lib.gme_track_info w.native g.emu (C_int track)).1.2.intro_length = 0) ∧
      ((GME.Track lib w after g track).1.1.LoopLength = 0 ↔
        (lib.gme_track_info w.native g.emu (C_int track)).1.2.loop_length = 0)) := by
  obtain ⟨h1, h2, h3⟩ := hint
  rw [Track_of_ok lib w after g track hok]
  simp only [millis_exact _ h1, millis_exact _ h2, millis_exact _ h3]
  unfold isCInt at h1 h2 h3
  refine ⟨?_, ⟨?_, ?_, ?_⟩, ⟨?_, ?_, ?_, ?_, ?_, ?_⟩, ⟨?_, ?_, ?_⟩, ⟨?_, ?_, ?_⟩⟩ <;>
    first | trivial | omega

/-- C6 at a concrete input: the record `sampleInfo` (1000 ms, -1 ms, 0 ms). -/
theorem C6_Track_durations_exact_witness :
    (okLib.gme_track_info w0.native (some 1) (C_int 0)).1.1 = none ∧
    (okLib.gme_track_info w0.native (some 1) (C_int 0)).1.2.timesAreCInt ∧
    (GME.Track okLib w0 [] { emu := some 1 } 0).1.1.Length = 1000000000 ∧
    (GME.Track okLib w0 [] { emu := some 1 } 0).1.1.IntroLength = -1000000 ∧
    (GME.Track okLib w0 [] { emu := some 1 } 0).1.1.LoopLength = 0 ∧
    ((GME.Track okLib w0 [] { emu := some 1 } 0).1.1.IntroLength < 0 ↔
      (okLib.gme_track_info w0.native (some 1) (C_int 0)).1.2.intro_length < 0) := by
  have h := C6_Track_durations_exact okLib w0 [] { emu := some 1 } 0 (by decide) (by decide)
  exact ⟨by decide, by decide, h.2.1.1, h.2.1.2.1, h.2.1.2.2, h.2.2.2.1.2.1⟩

/-- C7: `gmeError` returns nil exactly for the null native error; for a
non-null native error whose message is `m` (zero-terminated, whatever follows
the terminator) the error text is `"gme: "` followed by `m`.  `Track` fails
exactly when `gme_track_info` reports a non-null error, and then returns the
zero `Track`: durations 0 and strings empty. -/
theorem C7_gmeError_contract :
    (∀ e : CharPtr, gmeError e = none ↔ e = none) ∧
    gmeColon.map Fin.val = "gme: ".toList.map Char.toNat ∧
    (∀ m rest : List Byte, (0 : Byte) ∉ m →
      ∃ err, gmeError (some (m ++ 0 :: rest)) = some err ∧ err.Error = gmeColon ++ m) ∧
    (∀ (σ : Type) (lib : Native σ) (w : World σ) (after : List Byte) (g : GME) (track : Int),
      ((GME.Track lib w after g track).1.2 ≠ none ↔
        (lib.gme_track_info w.native g.emu (C_int track)).1.1 ≠ none) ∧
      ((GME.Track lib w after g track).1.2 ≠ none →
        (GME.Track lib w after g track).1.1 = Track.zero)) ∧
    Track.zero = Track.mk 0 0 0 [] [] [] [] [] [] [] := by
  refine ⟨gmeError_eq_none_iff, by decide, ?_, ?_, rfl⟩
  · intro m rest hm
    refine ⟨GoError.errorf (gmeColon ++ m), ?_, rfl⟩
    unfold gmeError C_GoString
    simp only [reduceCtorEq, if_false]
    rw [takeWhile_nonzero_append_zero m rest hm]
  · intro σ lib w after g track
    by_cases h : (lib.gme_track_info w.native g.emu (C_int track)).1.1 = none
    · rw [Track_of_ok lib w after g track h]
      simp [h]
    · obtain ⟨h1, h2⟩ := Track_of_error lib w after g track h
      rw [h1]
      exact ⟨⟨fun _ => h, fun _ => h2⟩, fun _ => rfl⟩

/-- C7 at concrete inputs: the message `"bad"`, and `Track` on a library whose
`gme_track_info` fails. -/
theorem C7_gmeError_contract_witness :
    (0 : Byte) ∉ ([98, 97, 100] : List Byte) ∧
    (∃ err, gmeError (some ([98, 97, 100] ++ 0 :: [7])) = some err ∧
      err.Error = gmeColon ++ [98, 97, 100]) ∧
    (GME.Track errLib w0 [] { emu := some 1 } 3).1.2 ≠ none ∧
    (GME.Track errLib w0 [] { emu := some 1 } 3).1.1 = Track.zero :=
  ⟨by decide, C7_gmeError_contract.2.2.1 [98, 97, 100] [7] (by decide), by decide,
    (C7_gmeError_contract.2.2.2.1 Unit errLib w0 [] { emu := some 1 } 3).2 (by decide)⟩

/-- C9 (as stated, fails): for the field filled with 256 bytes `A` (no zero
byte) followed in memory by `B` and a zero byte, `cstring` returns 257 bytes:
more than the capacity, and not a part of the field. -/
theorem C9_cstring_reads_past_field :
    (0 : Byte) ∉ (fieldFull 65).bytes ∧
    (cstring [66, 0] (fieldFull 65)).length = 257 ∧
    ¬ ((cstring [66, 0] (fieldFull 65)).length ≤ 256) ∧
    cstring [66, 0] (fieldFull 65) = (fieldFull 65).bytes ++ [66] := by
  unfold cstring C_GoString
  simp only []
  have hz : (0 : Byte) ∉ (fieldFull 65).bytes := by
    unfold fieldFull
    intro h
    exact absurd (List.eq_of_mem_replicate h) (by decide)
  have hl : (fieldFull 65).bytes.length = 256 := (fieldFull 65).size_eq
  rw [takeWhile_nonzero_append _ _ hz]
  have ht : List.takeWhile nonZero ([66, 0] : List Byte) = [66] := by decide
  rw [ht, List.length_append, hl]
  exact ⟨hz, rfl, by decide, rfl⟩

/-- C9 (amended): the result of `cstring` never holds a zero byte.  For a
field that holds a zero byte, whatever follows it in memory, the result is the
part of the field before its first zero byte, so it has fewer than 256 bytes.
For a field with no zero byte the read goes on past the field: the result is
the 256 bytes of the field and then the bytes that follow in memory up to the
first zero byte. -/
theorem C9_cstring_stops_at_first_zero (after : List Byte) (s : CharArray256) :
    (0 : Byte) ∉ cstring after s ∧
    ((0 : Byte) ∈ s.bytes →
      cstring after s = s.bytes.takeWhile nonZero ∧
      (∃ rest, s.bytes = cstring after s ++ 0 :: rest) ∧
      (cstring after s).length < 256) ∧
    ((0 : Byte) ∉ s.bytes →
      cstring after s = s.bytes ++ after.takeWhile nonZero ∧
      256 ≤ (cstring after s).length) := by
  refine ⟨zero_not_mem_takeWhile _, ?_, ?_⟩
  · intro hz
    obtain ⟨rest, hr⟩ := split_at_first_zero s.bytes hz
    have hnz := zero_not_mem_takeWhile s.bytes
    have hc : cstring after s = s.bytes.takeWhile nonZero := by
      unfold cstring C_GoString
      simp only []
      conv_lhs => rw [hr]
      rw [List.append_assoc, List.cons_append]
      exact takeWhile_nonzero_append_zero _ _ hnz
    refine ⟨hc, ⟨rest, by rw [hc]; exact hr⟩, ?_⟩
    have hlen := congrArg List.length hr
    rw [List.length_append, List.length_cons, s.size_eq] at hlen
    rw [hc]
    omega
  · intro hz
    have hc : cstring after s = s.bytes ++ after.takeWhile nonZero := by
      unfold cstring C_GoString
      exact takeWhile_nonzero_append _ _ hz
    refine ⟨hc, ?_⟩
    rw [hc, List.length_append, s.size_eq]
    omega

/-- C9 (amended) at concrete inputs: the field `"A"` padded with zeros, and
the field filled with `A`. -/
theorem C9_cstring_stops_at_first_zero_witness :
    (0 : Byte) ∈ (field1 65).bytes ∧ cstring [66, 0] (field1 65) = [65] ∧
    (0 : Byte) ∉ (fieldFull 65).bytes ∧ 256 ≤ (cstring [66, 0] (fieldFull 65)).length := by
  have h1 : (0 : Byte) ∈ (field1 65).bytes := by
    unfold field1
    exact List.mem_cons_of_mem _ (List.mem_cons_self _ _)
  have h2 : (0 : Byte) ∉ (fieldFull 65).bytes := by
    unfold fieldFull
    intro h
    exact absurd (List.eq_of_mem_replicate h) (by decide)
  have e1 := ((C9_cstring_stops_at_first_zero [66, 0] (field1 65)).2.1 h1).1
  have e2 := ((C9_cstring_stops_at_first_zero [66, 0] (fieldFull 65)).2.2 h2).2
  refine ⟨h1, ?_, h2, e2⟩
  rw [e1]
  decide

/-- C2 (as stated, fails): on the empty buffer `Play` neither returns an
error nor nil, it panics without calling `gme_play`; and on a buffer of
`2^31 + 1` entries, with no native error, entry `2^31` of `data` is the `short`
found at offset `-2^31` of the block (here 1), not sample `2^31` (here 2). -/
theorem C2_Play_not_total :
    GME.Play okLib w0 { emu := some 1 } [] = (.error (.indexOutOfRange 0 0), w0) ∧
    (GME.Play okLib w0 { emu := some 1 } (List.replicate 2147483649 0)).1 =
      .ok (playCopy (okLib.gme_play () (some 1) 2147483649).1.2
        (List.replicate 2147483649 0), none) ∧
    (playCopy (okLib.gme_play () (some 1) 2147483649).1.2
      (List.replicate 2147483649 0))[2147483648]? = some 1 ∧
    ((okLib.gme_play () (some 1) 2147483649).1.2 2147483648).val = 2 := by
  have hlen : (List.replicate 2147483649 (0 : Int)).length = 2147483649 :=
    List.length_replicate _ _
  have hne : List.replicate 2147483649 (0 : Int) ≠ [] := by
    intro h
    rw [h] at hlen
    exact absurd hlen (by decide)
  refine ⟨by decide, ?_, ?_, by decide⟩
  · exact (Play_of_nonempty okLib w0 { emu := some 1 } _ hne).2.1 rfl
  · rw [playCopy_getElem? _ _ 2147483648 (by rw [hlen]; omega)]
    have hc : C_int ((2147483648 : Nat) : Int) = -2147483648 := by decide
    rw [hc]
    decide

/-- C2 (amended): for every buffer `data` of 1 to `2^31` entries and every
outcome of the native `gme_play`, `Play` returns; the length of `data` is
unchanged; the error is non-nil exactly when `gme_play` reports an error, and
then `data` is unchanged; otherwise the error is nil and `data[i]` is the
`i`-th sample of the block for every `i < len(data)`.  The result does not
depend on `gme_track_ended`. -/
theorem C2_Play_atomic {σ : Type} (lib : Native σ) (w : World σ) (g : GME) (data : List Int)
    (hne : data ≠ []) (h31 : data.length ≤ 2147483648) :
    (∃ d err, (GME.Play lib w g data).1 = .ok (d, err) ∧
      d.length = data.length ∧
      (err ≠ none ↔ (lib.gme_play w.native g.emu data.length).1.1 ≠ none) ∧
      (err ≠ none → d = data) ∧
      (err = none → ∀ i, i < data.length →
        d[i]? = some ((lib.gme_play w.native g.emu data.length).1.2 i).val)) ∧
    (∀ ended : σ → EmuPtr → Int × σ,
      GME.Play { lib with gme_track_ended := ended } w g data = GME.Play lib w g data) :=
  ⟨Play_returns lib w g data hne h31, fun _ => rfl⟩

/-- C2 (amended) at concrete inputs: a successful and a failing native call on
a buffer of three entries. -/
theorem C2_Play_atomic_witness :
    ([9, 9, 9] : List Int) ≠ [] ∧ ([9, 9, 9] : List Int).length ≤ 2147483648 ∧
    (GME.Play okLib w0 { emu := some 1 } [9, 9, 9]).1 = .ok ([0, 1, 2], none) ∧
    (GME.Play errLib w0 { emu := some 1 } [9, 9, 9]).1 =
      .ok ([9, 9, 9], some (.errorf [103, 109, 101, 58, 32, 98, 97, 100])) ∧
    (∃ d err, (GME.Play okLib w0 { emu := some 1 } [9, 9, 9]).1 = .ok (d, err) ∧
      d.length = 3) :=
  ⟨by decide, by decide, by decide, by decide,
    (C2_Play_atomic okLib w0 { emu := some 1 } [9, 9, 9] (by decide) (by decide)).1.elim
      fun d h => h.elim fun err h2 => ⟨d, err, h2.1, h2.2.1⟩⟩

/-- C3: `Close` is idempotent.  `Close` after `Close` gives the state and the
world of a single `Close`, with the handle nil; any number of further calls
changes nothing and adds no native call; over `n + 1` calls the native calls
added are one `gme_delete` of the handle when it was not nil and none
otherwise, so `gme_delete` is called at most once. -/
theorem C3_Close_idempotent {σ : Type} (lib : Native σ) (w : World σ) (g : GME) :
    GME.Close lib (GME.Close lib w g).2 (GME.Close lib w g).1 = GME.Close lib w g ∧
    (GME.Close lib w g).1.emu = none ∧
    (∀ n : Nat, closeTimes lib (n + 1) w g = GME.Close lib w g) ∧
    (∀ n : Nat, (closeTimes lib (n + 1) w g).2.calls =
      w.calls ++ (if g.emu = none then [] else [NativeCall.gme_delete g.emu])) ∧
    (∀ n : Nat, ((closeTimes lib n w g).2.calls.drop w.calls.length).length ≤ 1) := by
  have hemu : (GME.Close lib w g).1.emu = none := by
    unfold GME.Close
    by_cases h : g.emu = none <;> simp [h]
  have hclosed : ∀ (w1 : World σ) (g1 : GME), g1.emu = none → GME.Close lib w1 g1 = (g1, w1) := by
    intro w1 g1 h1
    unfold GME.Close
    simp [h1]
  have hiter : ∀ (n : Nat) (w1 : World σ) (g1 : GME), g1.emu = none →
      closeTimes lib n w1 g1 = (g1, w1) := by
    intro n
    induction n with
    | zero => intro w1 g1 _; rfl
    | succ n ih =>
      intro w1 g1 h1
      unfold closeTimes
      simp only [hclosed w1 g1 h1]
      exact ih w1 g1 h1
  have hall : ∀ n : Nat, closeTimes lib (n + 1) w g = GME.Close lib w g := by
    intro n
    unfold closeTimes
    exact hiter n _ _ hemu
  have hcalls : (GME.Close lib w g).2.calls =
      w.calls ++ (if g.emu = none then [] else [NativeCall.gme_delete g.emu]) := by
    unfold GME.Close
    by_cases h : g.emu = none <;> simp [h, World.step]
  refine ⟨hclosed _ _ hemu, hemu, hall, fun n => ?_, fun n => ?_⟩
  · rw [hall n, hcalls]
  · cases n with
    | zero => simp [closeTimes]
    | succ n =>
      rw [hall n, hcalls, List.drop_left]
      by_cases h : g.emu = none <;> simp [h]

/-- C5: `Warning` returns the empty string, with the world (native state and
call log) unchanged, when the receiver is nil or its handle is nil.  With a
handle `h` it calls `gme_warning` once with `h` and returns the decoded string:
empty for a null pointer, and `m` for a pointer to the zero-terminated `m`. -/
theorem C5_Warning_guarded {σ : Type} (lib : Native σ) (w : World σ) :
    GME.Warning lib w none = ([], w) ∧
    GME.Warning lib w (some { emu := none }) = ([], w) ∧
    (∀ h : Nat,
      (GME.Warning lib w (some { emu := some h })).2 =
        w.step (.gme_warning (some h)) (lib.gme_warning w.native (some h)).2 ∧
      (GME.Warning lib w (some { emu := some h })).1 =
        C_GoString (lib.gme_warning w.native (some h)).1 ∧
      ((lib.gme_warning w.native (some h)).1 = none →
        (GME.Warning lib w (some { emu := some h })).1 = []) ∧
      (∀ m rest : List Byte, (0 : Byte) ∉ m →
        (lib.gme_warning w.native (some h)).1 = some (m ++ 0 :: rest) →
        (GME.Warning lib w (some { emu := some h })).1 = m)) := by
  refine ⟨rfl, rfl, fun h => ⟨rfl, rfl, fun hn => ?_, fun m rest hm hp => ?_⟩⟩
  · show C_GoString (lib.gme_warning w.native (some h)).1 = []
    rw [hn]
    rfl
  · show C_GoString (lib.gme_warning w.native (some h)).1 = m
    rw [hp]
    exact takeWhile_nonzero_append_zero m rest hm

/-- C5 at a concrete input: a native warning `"w"` (followed in memory by a
terminator and more bytes) on handle 1. -/
theorem C5_Warning_guarded_witness :
    (0 : Byte) ∉ ([119] : List Byte) ∧
    (okLib.gme_warning w0.native (some 1)).1 = some ([119] ++ 0 :: [120]) ∧
    (GME.Warning okLib w0 (some { emu := some 1 })).1 = [119] :=
  ⟨by decide, rfl, (C5_Warning_guarded okLib w0).2.2 1 |>.2.2.2 [119] [120] (by decide) rfl⟩

/-- C4 (as stated, fails): after `Close` of a session with handle 1, `Play`
on a buffer of two entries calls `gme_play` with the nil handle, returns a nil
error and overwrites `data`. -/
theorem C4_Play_after_Close_calls_native :
    (GME.Close okLib w0 { emu := some 1 }).1.emu = none ∧
    (GME.Play okLib (GME.Close okLib w0 { emu := some 1 }).2
      (GME.Close okLib w0 { emu := some 1 }).1 [9, 9]).1 = .ok ([0, 1], none) ∧
    (GME.Play okLib (GME.Close okLib w0 { emu := some 1 }).2
      (GME.Close okLib w0 { emu := some 1 }).1 [9, 9]).2.calls =
      [.gme_delete (some 1), .gme_play none 2] := by
  decide

/-- C4 (amended): after `Close` the handle is nil and `Play` makes no check of
it: on a buffer of 1 to `2^31` entries it calls `gme_play` once, with the nil
handle, and its result follows that call: a non-nil error exactly when the
native call reports one, with `data` unchanged, and otherwise nil with
`data[i]` the `i`-th sample of the block. -/
theorem C4_Play_after_Close_follows_native {σ : Type} (lib : Native σ) (w : World σ) (g : GME)
    (data : List Int) (hne : data ≠ []) (h31 : data.length ≤ 2147483648) :
    (GME.Close lib w g).1.emu = none ∧
    (GME.Play lib (GME.Close lib w g).2 (GME.Close lib w g).1 data).2.calls =
      (GME.Close lib w g).2.calls ++ [.gme_play none data.length] ∧
    (∃ d err, (GME.Play lib (GME.Close lib w g).2 (GME.Close lib w g).1 data).1 = .ok (d, err) ∧
      d.length = data.length ∧
      (err ≠ none ↔
        (lib.gme_play (GME.Close lib w g).2.native none data.length).1.1 ≠ none) ∧
      (err ≠ none → d = data) ∧
      (err = none → ∀ i, i < data.length →
        d[i]? = some ((lib.gme_play (GME.Close lib w g).2.native none data.length).1.2 i).val))
    := by
  have hemu : (GME.Close lib w g).1.emu = none := by
    unfold GME.Close
    by_cases h : g.emu = none <;> simp [h]
  have hcalls := (Play_of_nonempty lib (GME.Close lib w g).2 (GME.Close lib w g).1 data hne).1
  have hret := Play_returns lib (GME.Close lib w g).2 (GME.Close lib w g).1 data hne h31
  rw [hemu] at hcalls hret
  refine ⟨hemu, ?_, hret⟩
  rw [hcalls]
  rfl

/-- C4 (amended) at a concrete input: a closed session and a buffer of two
entries, with a native call that fails. -/
theorem C4_Play_after_Close_follows_native_witness :
    ([9, 9] : List Int) ≠ [] ∧ ([9, 9] : List Int).length ≤ 2147483648 ∧
    (GME.Play errLib (GME.Close errLib w0 { emu := some 1 }).2
      (GME.Close errLib w0 { emu := some 1 }).1 [9, 9]).2.calls =
      (GME.Close errLib w0 { emu := some 1 }).2.calls ++ [.gme_play none 2] ∧
    (GME.Play errLib (GME.Close errLib w0 { emu := some 1 }).2
      (GME.Close errLib w0 { emu := some 1 }).1 [9, 9]).1 =
      .ok ([9, 9], some (.errorf [103, 109, 101, 58, 32, 98, 97, 100])) :=
  ⟨by decide, by decide,
    (C4_Play_after_Close_follows_native errLib w0 { emu := some 1 } [9, 9] (by decide)
      (by decide)).2.1,
    by decide⟩

/-- C8 (as stated, fails): with sample rates 0 and -1, on a native library whose
`gme_open_data` reports no error, `New` returns a session and a nil error. -/
theorem C8_New_accepts_nonpositive_rate :
    (New okLib w0 [0] 0).1 = .ok (some { emu := some 1 }, none) ∧
    (New okLib w0 [0] (-1)).1 = .ok (some { emu := some 1 }, none) ∧
    (New okLib w0 [0] (-1)).2.calls = [.gme_open_data [0] 1 (-1)] := by
  decide

/-- C8 (amended): `New` makes no check of the sample rate.  For every image
that is not empty and every sample rate (those `<= 0` included) it calls
`gme_open_data` once with the sample rate unchanged, and it fails, with a nil
session and a non-nil error, exactly when that call reports an error;
otherwise it returns the session holding the handle the call stored, and a
nil error. -/
theorem C8_New_follows_native {σ : Type} (lib : Native σ) (w : World σ) (b : List Byte)
    (sampleRate : Int) (hne : b ≠ []) :
    (New lib w b sampleRate).2.calls =
      w.calls ++ [.gme_open_data b b.length sampleRate] ∧
    ((lib.gme_open_data w.native b b.length sampleRate).1.1 ≠ none →
      ∃ err, (New lib w b sampleRate).1 = .ok (none, some err)) ∧
    ((lib.gme_open_data w.native b b.length sampleRate).1.1 = none →
      (New lib w b sampleRate).1 =
        .ok (some { emu := (lib.gme_open_data w.native b b.length sampleRate).1.2 }, none))
    := by
  obtain ⟨hw, hok, herr⟩ := New_of_nonempty lib w b sampleRate hne
  refine ⟨by rw [hw]; rfl, fun h => ?_, hok⟩
  obtain ⟨h1, h2⟩ := herr h
  cases hE : gmeError (lib.gme_open_data w.native b b.length sampleRate).1.1 with
  | none => exact absurd hE h2
  | some err => exact ⟨err, by rw [h1, hE]⟩

/-- C8 (amended) at concrete inputs: sample rate 0 with a failing and with a
succeeding native call. -/
theorem C8_New_follows_native_witness :
    ([0] : List Byte) ≠ [] ∧
    (errLib.gme_open_data w0.native [0] 1 0).1.1 ≠ none ∧
    (∃ err, (New errLib w0 [0] 0).1 = .ok (none, some err)) ∧
    (New errLib w0 [0] 0).2.calls = w0.calls ++ [.gme_open_data [0] 1 0] :=
  ⟨by decide, by decide,
    (C8_New_follows_native errLib w0 [0] 0 (by decide)).2.1 (by decide),
    (C8_New_follows_native errLib w0 [0] 0 (by decide)).1⟩

/-- C10: `New` and `Play` index element 0 of their slice before any native
call.  On an image or a buffer that is not empty they do not panic: they
return, after exactly one native call.  On the empty image and on the empty
buffer they panic with index out of range (index 0, length 0), return neither
an error nor nil, and leave the world as it was: no native call is made. -/
theorem C10_index_zero_before_native {σ : Type} (lib : Native σ) (w : World σ) (g : GME) :
    (∀ (b : List Byte) (sampleRate : Int), b ≠ [] →
      (∃ r, (New lib w b sampleRate).1 = .ok r) ∧
      (New lib w b sampleRate).2.calls =
        w.calls ++ [.gme_open_data b b.length sampleRate]) ∧
    (∀ data : List Int, data ≠ [] →
      (∃ r, (GME.Play lib w g data).1 = .ok r) ∧
      (GME.Play lib w g data).2.calls = w.calls ++ [.gme_play g.emu data.length]) ∧
    (∀ sampleRate : Int,
      New lib w [] sampleRate = (.error (.indexOutOfRange 0 0), w)) ∧
    GME.Play lib w g [] = (.error (.indexOutOfRange 0 0), w) := by
  refine ⟨fun b sampleRate hne => ?_, fun data hne => ?_, fun _ => rfl, rfl⟩
  · obtain ⟨hw, hok, herr⟩ := New_of_nonempty lib w b sampleRate hne
    refine ⟨?_, by rw [hw]; rfl⟩
    by_cases h : (lib.gme_open_data w.native b b.length sampleRate).1.1 = none
    · exact ⟨_, hok h⟩
    · exact ⟨_, (herr h).1⟩
  · obtain ⟨hw, hok, herr⟩ := Play_of_nonempty lib w g data hne
    refine ⟨?_, by rw [hw]; rfl⟩
    by_cases h : (lib.gme_play w.native g.emu data.length).1.1 = none
    · exact ⟨_, hok h⟩
    · exact ⟨_, (herr h).1⟩

/-- C10 at concrete inputs: an image of one byte and a buffer of one entry. -/
theorem C10_index_zero_before_native_witness :
    ([7] : List Byte) ≠ [] ∧ ([9] : List Int) ≠ [] ∧
    (∃ r, (New okLib w0 [7] 44100).1 = .ok r) ∧
    (∃ r, (GME.Play okLib w0 { emu := some 1 } [9]).1 = .ok r) ∧
    New okLib w0 [] 44100 = (.error (.indexOutOfRange 0 0), w0) ∧
    GME.Play okLib w0 { emu := some 1 } [] = (.error (.indexOutOfRange 0 0), w0) :=
  ⟨by decide, by decide,
    ((C10_index_zero_before_native okLib w0 { emu := some 1 }).1 [7] 44100 (by decide)).1,
    ((C10_index_zero_before_native okLib w0 { emu := some 1 }).2.1 [9] (by decide)).1,
    (C10_index_zero_before_native okLib w0 { emu := some 1 }).2.2.1 44100,
    (C10_index_zero_before_native okLib w0 { emu := some 1 }).2.2.2⟩

end Gme
